import Mathlib

/-!
Verification of the ticket-composition engine of beasty_printer_hub
(`src/printer.js`) against its specification.

Strings are modelled as `List Char` (one entry per Unicode code point; all
texts exercised here live in the Basic Multilingual Plane, where this agrees
with JavaScript's UTF-16 view), byte payloads as `List Nat` with every entry
below 256.  Stateful inputs of the JavaScript code (the wall clock used by
`buildDailySummaryTicket`, the process time-zone offset used by `new Date`,
and socket events) are passed explicitly as parameters.
-/

namespace PrinterHub

set_option maxRecDepth 8192

set_option maxHeartbeats 1000000

abbrev Str := List Char

abbrev Bytes := List Nat

def spaceChar : Char := Char.ofNat 32

def nlChar : Char := Char.ofNat 10

/-- The character class of JavaScript's regex `\s` (also the set removed by
`String.prototype.trim`): tab, LF, VT, FF, CR, space, NBSP, and the Unicode
space separators, line/paragraph separators and BOM. -/
def jsWs (c : Char) : Bool :=
  let n := c.toNat
  n = 9 || n = 10 || n = 11 || n = 12 || n = 13 || n = 32 || n = 160 ||
  n = 0x1680 || (0x2000 ≤ n && n ≤ 0x200a) || n = 0x2028 || n = 0x2029 ||
  n = 0x202f || n = 0x205f || n = 0x3000 || n = 0xfeff

/-- `str.split(/\s+/)` (printer.js:349): the maximal whitespace runs are the
separators; an empty fragment is kept at the front (resp. back) when the
string starts (resp. ends) with whitespace, and `""` splits to `[""]`.
`cur` is the reversed current fragment. -/
def splitWsAux (cur : Str) : Str → List Str
  | [] => [cur.reverse]
  | c :: rest =>
    if jsWs c then
      match rest with
      | [] => [cur.reverse, []]
      | d :: rest2 =>
        if jsWs d then splitWsAux cur (d :: rest2)
        else cur.reverse :: splitWsAux [d] rest2
    else splitWsAux (c :: cur) rest

def splitWs (s : Str) : List Str := splitWsAux [] s

/-- The word loop of `wrapTextNoBreak` (printer.js:352-367): `line` is the
current line buffer; a word is placed unconditionally on an empty buffer,
appended when it fits within `maxLen`, and otherwise flushes the buffer. -/
def wrapGo (maxLen : Nat) : List Str → Str → List Str
  | [], line => if line.isEmpty then [] else [line]
  | w :: ws, line =>
    if line.isEmpty then wrapGo maxLen ws w
    else if line.length + 1 + w.length ≤ maxLen then
      wrapGo maxLen ws (line ++ spaceChar :: w)
    else line :: wrapGo maxLen ws w

/-- `wrapTextNoBreak(str, maxLen)` (printer.js:347-368). -/
def wrapTextNoBreak (str : Str) (maxLen : Nat) : List Str :=
  wrapGo maxLen (splitWs str) []

/-- Fragments joined by single spaces; used to state what an output line of
the wrapper looks like. -/
def joinWords : List Str → Str
  | [] => []
  | w :: ws => w ++ ws.flatMap (fun v => spaceChar :: v)

/-- `String.prototype.trim`. -/
def jsTrim (s : Str) : Str :=
  ((s.dropWhile jsWs).reverse.dropWhile jsWs).reverse

/-- `.replace(/\s+/g, ' ')` (printer.js:96): every maximal whitespace run
becomes one space. -/
def collapseWs : Str → Str
  | [] => []
  | c :: rest =>
    if jsWs c then
      match rest with
      | [] => [spaceChar]
      | d :: rest2 =>
        if jsWs d then collapseWs (d :: rest2)
        else spaceChar :: collapseWs (d :: rest2)
    else c :: collapseWs rest

/-- The code-point ranges removed by `stripEmoji` (printer.js:88-95):
emoji blocks, misc symbols, dingbats, variation selectors, playing cards,
the zero-width joiner and tag characters. -/
def strippedEmoji (c : Char) : Bool :=
  let n := c.toNat
  (0x1f300 ≤ n && n ≤ 0x1f9ff) || (0x2600 ≤ n && n ≤ 0x26ff) ||
  (0x2700 ≤ n && n ≤ 0x27bf) || (0xfe00 ≤ n && n ≤ 0xfe0f) ||
  (0x1f000 ≤ n && n ≤ 0x1f02f) || (0x1f0a0 ≤ n && n ≤ 0x1f0ff) ||
  n = 0x200d || (0xe0000 ≤ n && n ≤ 0xe007f)

/-- `stripEmoji` (printer.js:86-98): remove the pictographic ranges, collapse
whitespace runs to single spaces, trim. -/
def stripEmoji (s : Str) : Str :=
  jsTrim (collapseWs (s.filter (fun c => !strippedEmoji c)))

/-- `cleanTitle` (printer.js:100-102): `stripEmoji(title || '').trim()`. -/
def cleanTitle (title : Str) : Str := jsTrim (stripEmoji title)

/-- `cleanText` (printer.js:104-109): dashes and curly quotes to ASCII. -/
def cleanText (s : Str) : Str :=
  s.map (fun c =>
    if c.toNat = 0x2013 || c.toNat = 0x2014 || c.toNat = 0x2015 then Char.ofNat 45
    else if c.toNat = 0x2018 || c.toNat = 0x2019 then Char.ofNat 39
    else if c.toNat = 0x201c || c.toNat = 0x201d then Char.ofNat 34
    else c)

/-- `String.prototype.toUpperCase` restricted to ASCII and Latin-1, which is
all the engine's German text needs: `a`-`z` and `à`-`þ` (except `÷`) map up by
32, `ß` expands to `SS`, `µ` maps to U+039C and `ÿ` to U+0178.  Code points
with an uppercase image outside this set pass through unchanged. -/
def jsToUpperChar (c : Char) : Str :=
  let n := c.toNat
  if 97 ≤ n && n ≤ 122 then [Char.ofNat (n - 32)]
  else if n = 0xdf then [Char.ofNat 83, Char.ofNat 83]
  else if 0xe0 ≤ n && n ≤ 0xfe && n ≠ 0xf7 then [Char.ofNat (n - 32)]
  else if n = 0xb5 then [Char.ofNat 0x39c]
  else if n = 0xff then [Char.ofNat 0x178]
  else [c]

def jsToUpper (s : Str) : Str := s.flatMap jsToUpperChar

def ESC : Nat := 27

def GS : Nat := 29

/-- Character width for 58mm paper (printer.js:8). -/
def PAPER_WIDTH : Nat := 32

/-- `init()` (printer.js:14-20): initialize and select code page 1252. -/
def init : Bytes := [ESC, 0x40, ESC, 0x74, 16]

/-- `align(mode)` (printer.js:22-25). -/
def align (mode : Str) : Bytes :=
  [ESC, 0x61,
   if mode = (r"center").toList then 1 else if mode = (r"right").toList then 2 else 0]

/-- `textSize(width, height)` (printer.js:27-31): both axes clamped to
`[1,8]`, zero-based, nibble-packed. -/
def textSize (width height : Nat) : Bytes :=
  [GS, 0x21, 16 * (min 8 (max 1 width) - 1) + (min 8 (max 1 height) - 1)]

/-- `emphasis(on)` (printer.js:33-35). -/
def emphasis (isOn : Bool) : Bytes := [ESC, 0x45, if isOn then 1 else 0]

/-- `inverse(on)` (printer.js:37-39). -/
def inverse (isOn : Bool) : Bytes := [GS, 0x42, if isOn then 1 else 0]

/-- The single code-page byte a character is sent as by `text` (printer.js:43-54):
the seven German letters are replaced by their Windows-1252 byte values (which
coincide with their Latin-1 code points), and `Buffer.from(..., 'binary')`
keeps the low byte of everything else. -/
def charByte (c : Char) : Nat :=
  if c = Char.ofNat 0xe4 then 0xe4
  else if c = Char.ofNat 0xf6 then 0xf6
  else if c = Char.ofNat 0xfc then 0xfc
  else if c = Char.ofNat 0xc4 then 0xc4
  else if c = Char.ofNat 0xd6 then 0xd6
  else if c = Char.ofNat 0xdc then 0xdc
  else if c = Char.ofNat 0xdf then 0xdf
  else c.toNat % 256

/-- `text(str)` (printer.js:43-54). -/
def text (str : Str) : Bytes := str.map charByte

/-- `feed(lines)` (printer.js:56-58): clamp to `[0,255]`. -/
def feed (lines : Nat) : Bytes := [ESC, 0x64, min 255 lines]

/-- `cut()` (printer.js:60-62): full cut. -/
def cut : Bytes := [GS, 0x56, 0x42, 0x00]

/-- `hr(char, length)` (printer.js:64-66): a repeated character plus newline,
sent as raw `binary`-encoded text. -/
def hr (c : Char) (len : Nat) : Bytes := List.replicate len (c.toNat % 256) ++ [10]

/-- `qrCode(data, {size})` (printer.js:68-80): error level, module size
(clamped to `[1,16]`), length-prefixed store of the ASCII payload, print. -/
def qrCode (data : Str) (size : Nat) : Bytes :=
  let s := if data.isEmpty then (r"NA").toList else data
  [GS, 0x28, 0x6b, 0x03, 0x00, 0x31, 0x45, 48] ++
  [GS, 0x28, 0x6b, 0x03, 0x00, 0x31, 0x43, min 16 (max 1 size)] ++
  ([GS, 0x28, 0x6b] ++ [(s.length + 3) % 256, ((s.length + 3) / 256) % 256] ++
    [0x31, 0x50, 0x30] ++ s.map (fun c => c.toNat % 256)) ++
  [GS, 0x28, 0x6b, 0x03, 0x00, 0x31, 0x51, 0x30]

example : splitWs ((r"a  b").toList) = [[Char.ofNat 97], [Char.ofNat 98]] := by decide

example : splitWs [] = [[]] := by decide

example : wrapTextNoBreak ((r"hello world out there").toList) 11 =
    [(r"hello world").toList, (r"out there").toList] := by decide

example : jsToUpper ((r"Müll raus").toList) = (r"MÜLL RAUS").toList := by decide

example : text ((r"MÜ").toList) = [77, 220] := by decide

def natToChars (n : Nat) : Str := Nat.toDigits 10 n

/-- `String(n).padStart(w, '0')`. -/
def padZeros (w : Nat) (n : Nat) : Str :=
  List.replicate (w - (natToChars n).length) '0' ++ natToChars n

def isLeap (y : Int) : Bool :=
  (Int.emod y 4 = 0 && Int.emod y 100 ≠ 0) || Int.emod y 400 = 0

def daysInMonth (y : Int) (m : Nat) : Nat :=
  if m = 2 then (if isLeap y then 29 else 28)
  else if m = 4 || m = 6 || m = 9 || m = 11 then 30
  else 31

/-- Days since the epoch 1970-01-01 of a proleptic-Gregorian civil date
(Howard Hinnant's `days_from_civil`, with floor division). -/
def daysFromCivil (y : Int) (m d : Nat) : Int :=
  let y2 : Int := if m ≤ 2 then y - 1 else y
  let era : Int := Int.fdiv y2 400
  let yoe : Nat := (y2 - era * 400).toNat
  let doy : Nat := (153 * (if 2 < m then m - 3 else m + 9) + 2) / 5 + d - 1
  let doe : Nat := yoe * 365 + yoe / 4 - yoe / 100 + doy
  era * 146097 + (doe : Int) - 719468

/-- Inverse of `daysFromCivil` (`civil_from_days`): year, month, day. -/
def civilFromDays (z0 : Int) : Int × Nat × Nat :=
  let z := z0 + 719468
  let era : Int := Int.fdiv z 146097
  let doe : Nat := (z - era * 146097).toNat
  let yoe : Nat := (doe - doe / 1460 + doe / 36524 - doe / 146096) / 365
  let doy : Nat := doe - (365 * yoe + yoe / 4 - yoe / 100)
  let mp : Nat := (5 * doy + 2) / 153
  let d : Nat := doy - (153 * mp + 2) / 5 + 1
  let m : Nat := if mp < 10 then mp + 3 else mp - 9
  (((yoe : Int) + era * 400) + (if m ≤ 2 then 1 else 0), m, d)

/-- `Date.prototype.getDay` for an epoch-day number (day 0 = Thursday). -/
def weekdayOf (days : Int) : Nat := (Int.emod (days + 4) 7).toNat

/-- Read exactly `n` decimal digits, most significant first. -/
def takeDigitsAux : Nat → Nat → Str → Option (Nat × Str)
  | 0, acc, s => some (acc, s)
  | _ + 1, _, [] => none
  | n + 1, acc, c :: s =>
    if c.isDigit then takeDigitsAux n (acc * 10 + (c.toNat - 48)) s else none

/-- The fields of an ECMA-262 Date Time String, before conversion to an
epoch value.  `hasTime` records whether a time component was present
(a date-only form is interpreted as UTC, a date-time form without an
offset as local time). -/
structure DateParts where
  year : Int
  month : Nat
  day : Nat
  hour : Nat
  minute : Nat
  second : Nat
  millis : Nat
  hasTime : Bool
  offset : Option Int
deriving DecidableEq

def parseYearPart : Str → Option (Int × Str)
  | [] => none
  | c :: rest =>
    if c = '+' then
      match takeDigitsAux 6 0 rest with
      | some (y, r) => some ((y : Int), r)
      | none => none
    else if c = '-' then
      match takeDigitsAux 6 0 rest with
      | some (y, r) => if y = 0 then none else some (-(y : Int), r)
      | none => none
    else
      match takeDigitsAux 4 0 (c :: rest) with
      | some (y, r) => some ((y : Int), r)
      | none => none

def parseMonthDayPart (y : Int) : Str → Option (Nat × Nat × Str) := fun s =>
  match s with
  | '-' :: rest =>
    (match takeDigitsAux 2 0 rest with
     | some (m, r2) =>
       if 1 ≤ m ∧ m ≤ 12 then
         match r2 with
         | '-' :: r3 =>
           (match takeDigitsAux 2 0 r3 with
            | some (d, r4) =>
              if 1 ≤ d ∧ d ≤ daysInMonth y m then some (m, d, r4) else none
            | none => none)
         | _ => some (m, 1, r2)
       else none
     | none => none)
  | _ => some (1, 1, s)

def parseTimePart : Str → Option (Nat × Nat × Nat × Nat × Str) := fun s =>
  match takeDigitsAux 2 0 s with
  | none => none
  | some (hh, r1) =>
    match r1 with
    | ':' :: r2 =>
      (match takeDigitsAux 2 0 r2 with
       | none => none
       | some (mm, r3) =>
         match r3 with
         | ':' :: r4 =>
           (match takeDigitsAux 2 0 r4 with
            | none => none
            | some (ss, r5) =>
              match r5 with
              | '.' :: r6 =>
                (match takeDigitsAux 3 0 r6 with
                 | none => none
                 | some (ms, r7) => some (hh, mm, ss, ms, r7))
              | _ => some (hh, mm, ss, 0, r5))
         | _ => some (hh, mm, 0, 0, r3))
    | _ => none

def parseOffsetPart : Str → Option (Option Int)
  | [] => some none
  | c :: rest =>
    if c = 'Z' then (if rest.isEmpty then some (some 0) else none)
    else if c = '+' ∨ c = '-' then
      match takeDigitsAux 2 0 rest with
      | none => none
      | some (oh, r2) =>
        match r2 with
        | ':' :: r3 =>
          (match takeDigitsAux 2 0 r3 with
           | none => none
           | some (om, r4) =>
             if r4.isEmpty ∧ oh ≤ 23 ∧ om ≤ 59 then
               some (some ((if c = '-' then (-1 : Int) else 1) * ((oh : Int) * 60 + om)))
             else none)
        | _ => none
    else none

/-- `new Date(string)` for the ECMA-262 Date Time String Format
(`YYYY[-MM[-DD]]`, optional `THH:mm[:ss[.sss]]`, optional `Z` or `±HH:MM`
offset, expanded `±YYYYYY` years).  Strings outside this grammar are treated
as unparseable (Invalid Date); engine-specific legacy formats are not
modelled, which covers the ISO-8601 `due` values of the data model. -/
def parseIsoDate (s : Str) : Option DateParts :=
  match parseYearPart s with
  | none => none
  | some (y, r1) =>
    match parseMonthDayPart y r1 with
    | none => none
    | some (m, d, r2) =>
      match r2 with
      | [] => some ⟨y, m, d, 0, 0, 0, 0, false, none⟩
      | c :: r3 =>
        if c = 'T' then
          match parseTimePart r3 with
          | none => none
          | some (hh, mm, ss, ms, r4) =>
            if (hh ≤ 23 ∧ mm ≤ 59 ∧ ss ≤ 59) ∨ (hh = 24 ∧ mm = 0 ∧ ss = 0 ∧ ms = 0) then
              match parseOffsetPart r4 with
              | none => none
              | some off => some ⟨y, m, d, hh, mm, ss, ms, true, off⟩
            else none
        else none

/-- Epoch milliseconds of a parsed date string, or `none` for an Invalid
Date.  `tz` is the environment's local offset from UTC in minutes and is
used exactly where JavaScript does: for a date-time without an explicit
offset. -/
def jsDateEpochMs (tz : Int) (s : Str) : Option Int :=
  match parseIsoDate s with
  | none => none
  | some p =>
    let offMin : Int := match p.offset with
      | some o => o
      | none => if p.hasTime then tz else 0
    let ms : Int :=
      daysFromCivil p.year p.month p.day * 86400000 + (p.hour : Int) * 3600000 +
      (p.minute : Int) * 60000 + (p.second : Int) * 1000 + (p.millis : Int) -
      offMin * 60000
    if ms.natAbs ≤ 8640000000000000 then some ms else none

/-- `date.toISOString().slice(0, 10)` for an epoch-day number: the plain
`YYYY-MM-DD` key for years 0-9999; for other years `toISOString` uses the
expanded `±YYYYYY-…` form, whose first ten characters end inside the month. -/
def isoDateKey (days : Int) : Str :=
  match civilFromDays days with
  | (y, m, d) =>
    if 0 ≤ y ∧ y ≤ 9999 then
      padZeros 4 y.toNat ++ ['-'] ++ padZeros 2 m ++ ['-'] ++ padZeros 2 d
    else
      (if y < 0 then '-' else '+') :: padZeros 6 y.natAbs ++ ['-'] ++ padZeros 2 m

/-- The date-bucket key `new Date(due).toISOString().slice(0, 10)` used by
`groupTasksByDay` (printer.js:382-384), `none` when `new Date(due)` is
invalid. -/
def jsDateKey (tz : Int) (s : Str) : Option Str :=
  (jsDateEpochMs tz s).map (fun ms => isoDateKey (Int.fdiv ms 86400000))

example : jsDateKey 0 ((r"2025-10-06").toList) = some ((r"2025-10-06").toList) := by decide

example : jsDateKey 0 ((r"not-a-date").toList) = none := by decide

example : jsDateKey 0 ((r"2024-02-29T23:30:00-02:00").toList) =
    some ((r"2024-03-01").toList) := by decide

example : jsDateKey (-120) ((r"2024-02-29T23:30:00").toList) =
    some ((r"2024-03-01").toList) := by decide

example : weekdayOf (daysFromCivil 2025 10 6) = 1 := by decide

/-- The task shape of the data model: `id`, `description` and `due` may be
absent, `labels` defaults to the empty sequence.  `priority` and
`completedThisMorning` are carried but never read by the engine. -/
structure Task where
  id : Option Str
  title : Str
  description : Option Str
  due : Option Str
  labels : List Str
  priority : Option Int
  completedThisMorning : Option Bool
deriving DecidableEq

/-- JavaScript truthiness of an optional string (`undefined` and `''` are
falsy). -/
def truthyStr : Option Str → Bool
  | none => false
  | some s => !s.isEmpty

/-- `a || dflt` for an optional string `a`. -/
def jsOrStr : Option Str → Str → Str
  | some s, dflt => if s.isEmpty then dflt else s
  | none, dflt => dflt

/-- `cleanLabels.join('] [')` (printer.js:151). -/
def labelsChunk (labels : List Str) : Str :=
  List.intercalate ((r"] [").toList) (labels.map cleanTitle)

/-- The shared feed-and-cut trailer every builder ends with
(printer.js:173-174, 232-233, 336-337, 514-515). -/
def ticketTrailer : Bytes := feed 3 ++ cut

/-- Top banner of the single-task ticket (printer.js:119-126). -/
def singleBanner : Bytes :=
  init ++ align ((r"center").toList) ++ inverse true ++ textSize 2 2 ++
  text ((r" * DO IT! * ").toList ++ [nlChar]) ++ textSize 1 1 ++ inverse false ++ feed 1

/-- `cleanTitle(task.title).toUpperCase()` (printer.js:129). -/
def singleTitle (t : Task) : Str := jsToUpper (cleanTitle t.title)

/-- `title.length > 20 ? 2 : 3` (printer.js:132). -/
def singleUseSize (t : Task) : Nat := if 20 < (singleTitle t).length then 2 else 3

/-- `Math.floor(PAPER_WIDTH / useSize)` (printer.js:133). -/
def singleMaxChars (t : Task) : Nat := PAPER_WIDTH / singleUseSize t

/-- The big-title block of the single-task ticket (printer.js:128-146). -/
def singleTitlePart (t : Task) : Bytes :=
  textSize (singleUseSize t) (singleUseSize t) ++ emphasis true ++
  (wrapTextNoBreak (singleTitle t) (singleMaxChars t)).flatMap
    (fun line => text (line ++ [nlChar])) ++
  emphasis false ++ textSize 1 1 ++ feed 1

/-- Bracketed label chips (printer.js:148-153). -/
def singleLabelsPart (t : Task) : Bytes :=
  if t.labels.isEmpty then []
  else text ('[' :: labelsChunk t.labels ++ [']', nlChar]) ++ feed 1

/-- Rule plus centered wrapped description when present (printer.js:155-165). -/
def singleDescPart (t : Task) : Bytes :=
  if truthyStr t.description then
    hr '-' PAPER_WIDTH ++ align ((r"center").toList) ++
    (wrapTextNoBreak (cleanText ((t.description).getD [])) PAPER_WIDTH).flatMap
      (fun dl => text (dl ++ [nlChar])) ++
    feed 1
  else []

/-- Rule plus QR code for `donotick:` + id-or-title (printer.js:167-171). -/
def singleQrPart (t : Task) : Bytes :=
  hr '=' PAPER_WIDTH ++ align ((r"center").toList) ++
  qrCode ((r"donotick:").toList ++ jsOrStr t.id t.title) 8

/-- `buildSingleTaskTicket` (printer.js:115-177). -/
def buildSingleTaskTicket (t : Task) : Bytes :=
  singleBanner ++ singleTitlePart t ++ singleLabelsPart t ++ singleDescPart t ++
  singleQrPart t ++ ticketTrailer

/-- `formatDate` (printer.js:370-376) applied to the current wall-clock
date, passed explicitly as a (day-of-month, month) pair. -/
def formatDate (now : Nat × Nat) : Str :=
  padZeros 2 now.1 ++ ['.'] ++ padZeros 2 now.2

/-- One task entry of the daily ticket (printer.js:206-229): emphasized
bulleted title, wrapped at `PAPER_WIDTH - 2` with two-space continuation
indents, then one label line if labels exist. -/
def dailyTaskBlock (t : Task) : Bytes :=
  (if (cleanTitle t.title).length ≤ PAPER_WIDTH - 2 then
    emphasis true ++ text ((r"- ").toList ++ cleanTitle t.title ++ [nlChar]) ++ emphasis false
  else
    emphasis true ++
    text ((r"- ").toList ++
      (wrapTextNoBreak (cleanTitle t.title) (PAPER_WIDTH - 2)).headD [] ++ [nlChar]) ++
    emphasis false ++
    ((wrapTextNoBreak (cleanTitle t.title) (PAPER_WIDTH - 2)).drop 1).flatMap
      (fun l => text ((r"  ").toList ++ l ++ [nlChar]))) ++
  (if t.labels.isEmpty then []
   else text ((r"  [").toList ++ labelsChunk t.labels ++ [']', nlChar]))

/-- `buildDailySummaryTicket` (printer.js:183-236).  The wall clock consumed
by `new Date()` is the explicit `now` parameter. -/
def buildDailySummaryTicket (tasks : List Task) (now : Nat × Nat) : Bytes :=
  init ++ align ((r"center").toList) ++ inverse true ++ textSize 2 1 ++
  text ((r" HEUTE ").toList ++ formatDate now ++ [spaceChar]) ++
  textSize 1 1 ++ text [nlChar] ++ inverse false ++ feed 1 ++
  align ((r"left").toList) ++
  text (natToChars tasks.length ++ [spaceChar] ++ (r"Aufgaben").toList ++ [nlChar]) ++
  hr '-' PAPER_WIDTH ++
  tasks.flatMap dailyTaskBlock ++
  hr '-' PAPER_WIDTH ++ ticketTrailer

/-- The key a task is grouped under (printer.js:380-384): skipped when `due`
is falsy or does not parse as a date. -/
def taskKey (tz : Int) (t : Task) : Option Str :=
  match t.due with
  | none => none
  | some s => if s.isEmpty then none else jsDateKey tz s

/-- `groups[key]` creation and push (printer.js:385-386): an existing bucket
grows at its position, a new key is appended. -/
def insertTask (groups : List (Str × List Task)) (k : Str) (t : Task) :
    List (Str × List Task) :=
  if groups.any (fun p => p.1 == k) then
    groups.map (fun p => if p.1 == k then (p.1, p.2 ++ [t]) else p)
  else groups ++ [(k, [t])]

def groupStep (tz : Int) (g : List (Str × List Task)) (t : Task) :
    List (Str × List Task) :=
  match taskKey tz t with
  | none => g
  | some k => insertTask g k t

/-- The insertion-ordered buckets before sorting (printer.js:379-387). -/
def groupsRaw (tz : Int) (tasks : List Task) : List (Str × List Task) :=
  tasks.foldl (groupStep tz) []

def findBucket (g : List (Str × List Task)) (k : Str) : List Task :=
  match g.find? (fun p => p.1 == k) with
  | some p => p.2
  | none => []

/-- `groupTasksByDay` (printer.js:378-391): the buckets re-emitted in the
order of `Object.keys(groups).sort()`, JavaScript's lexicographic string
sort. -/
def groupTasksByDay (tz : Int) (tasks : List Task) : List (Str × List Task) :=
  (List.insertionSort (fun a b : Str => a ≤ b) ((groupsRaw tz tasks).map Prod.fst)).map
    (fun k => (k, findBucket (groupsRaw tz tasks) k))

def dayNames : List Str :=
  [(r"So").toList, (r"Mo").toList, (r"Di").toList, (r"Mi").toList,
   (r"Do").toList, (r"Fr").toList, (r"Sa").toList]

/-- The civil fields of `new Date(dateKey + 'T00:00:00')` seen through the
local getters `getDay`/`getDate`/`getMonth` (printer.js:266-269): a local
parse read back with local getters yields the parsed fields themselves. -/
def keyCivilFields (k : Str) : Option (Int × Nat × Nat) :=
  match parseIsoDate (k ++ (r"T00:00:00").toList) with
  | some p => some (p.year, p.month, p.day)
  | none => none

/-- ` ${dayName} ${dayNum}.${monthNum} ` (printer.js:273); an unparseable
key would surface as JavaScript's `undefined`/`NaN` renderings. -/
def dayBanner (k : Str) : Str :=
  match keyCivilFields k with
  | some (y, m, d) =>
    [spaceChar] ++ (dayNames.getD (weekdayOf (daysFromCivil y m d)) []) ++
    [spaceChar] ++ natToChars d ++ ['.'] ++ natToChars m ++ [spaceChar]
  | none => [spaceChar] ++ (r"undefined NaN.NaN").toList ++ [spaceChar]

/-- One task entry of the weekly ticket (printer.js:277-297): like the daily
entry but without emphasis. -/
def weeklyTaskLines (t : Task) : Bytes :=
  (if (cleanTitle t.title).length ≤ PAPER_WIDTH - 2 then
    text ((r"- ").toList ++ cleanTitle t.title ++ [nlChar])
  else
    text ((r"- ").toList ++
      (wrapTextNoBreak (cleanTitle t.title) (PAPER_WIDTH - 2)).headD [] ++ [nlChar]) ++
    ((wrapTextNoBreak (cleanTitle t.title) (PAPER_WIDTH - 2)).drop 1).flatMap
      (fun l => text ((r"  ").toList ++ l ++ [nlChar]))) ++
  (if t.labels.isEmpty then []
   else text ((r"  [").toList ++ labelsChunk t.labels ++ [']', nlChar]))

/-- One day group of the weekly ticket (printer.js:263-299); an empty bucket
is skipped by the `continue`. -/
def dayEntryBlock (p : Str × List Task) : Bytes :=
  if p.2.isEmpty then []
  else
    align ((r"left").toList) ++ inverse true ++ text (dayBanner p.1) ++ inverse false ++
    text ([spaceChar, '('] ++ natToChars p.2.length ++ [')', nlChar]) ++
    p.2.flatMap weeklyTaskLines ++ feed 1

/-- `tasks.filter(t => !t.due)` (printer.js:302). -/
def weeklyNoDue (tasks : List Task) : List Task :=
  tasks.filter (fun t => !truthyStr t.due)

/-- The OHNE DATUM section (printer.js:301-327). -/
def weeklyNoDueBlock (tasks : List Task) : Bytes :=
  if (weeklyNoDue tasks).isEmpty then []
  else
    inverse true ++ text ((r" OHNE DATUM ").toList) ++ inverse false ++
    text ([spaceChar, '('] ++ natToChars (weeklyNoDue tasks).length ++ [')', nlChar]) ++
    (weeklyNoDue tasks).flatMap weeklyTaskLines ++ feed 1

/-- The final value of `totalCount` (printer.js:260, 296, 324): one increment
per task printed in an emitted day group or in the no-date section. -/
def weeklyTotalCount (tz : Int) (tasks : List Task) : Nat :=
  (((groupTasksByDay tz tasks).filter (fun p => !p.2.isEmpty)).map
    (fun p => p.2.length)).sum + (weeklyNoDue tasks).length

/-- `buildWeeklySummaryTicket` (printer.js:242-340). -/
def buildWeeklySummaryTicket (tz : Int) (tasks : List Task) (weekRange : Str) : Bytes :=
  init ++ align ((r"center").toList) ++ inverse true ++ textSize 1 2 ++
  text ((r" WOCHENPLAN ").toList ++ [nlChar]) ++ textSize 1 1 ++
  text ([spaceChar] ++ cleanText weekRange ++ [spaceChar, nlChar]) ++
  inverse false ++ feed 1 ++
  (groupTasksByDay tz tasks).flatMap dayEntryBlock ++
  weeklyNoDueBlock tasks ++
  hr '=' PAPER_WIDTH ++ align ((r"center").toList) ++ emphasis true ++
  text ((r"GESAMT: ").toList ++ natToChars (weeklyTotalCount tz tasks) ++
    [spaceChar] ++ (r"Aufgaben").toList ++ [nlChar]) ++
  emphasis false ++ ticketTrailer

/-- `escapeWifiString` (printer.js:461-464): backslash-escape `\ ; , : "`. -/
def escapeWifiString (s : Str) : Str :=
  s.flatMap (fun c =>
    if c = Char.ofNat 92 || c = ';' || c = ',' || c = ':' || c = Char.ofNat 34 then
      [Char.ofNat 92, c]
    else [c])

/-- The WiFi-credential URI (printer.js:488-500). -/
def wifiQrString (ssid : Str) (password : Option Str) (tpe : Str) (hidden : Bool) : Str :=
  (r"WIFI:T:").toList ++ tpe ++ (r";S:").toList ++ escapeWifiString ssid ++ [';'] ++
  (if tpe ≠ (r"nopass").toList ∧ truthyStr password then
    (r"P:").toList ++ escapeWifiString (jsOrStr password []) ++ [';']
  else []) ++
  (if hidden then (r"H:true;").toList else []) ++ [';']

/-- `buildWifiQrTicket` (printer.js:466-518). -/
def buildWifiQrTicket (ssid : Str) (password : Option Str) (tpe : Str) (hidden : Bool) :
    Bytes :=
  init ++ align ((r"center").toList) ++ inverse true ++ textSize 2 1 ++
  text ((r" WLAN ").toList) ++ textSize 1 1 ++ text [nlChar] ++ inverse false ++ feed 1 ++
  textSize 2 2 ++ emphasis true ++ text (ssid ++ [nlChar]) ++ emphasis false ++
  textSize 1 1 ++ feed 1 ++
  hr '=' PAPER_WIDTH ++ qrCode (wifiQrString ssid password tpe hidden) 10 ++ feed 1 ++
  hr '=' PAPER_WIDTH ++ feed 1 ++ align ((r"center").toList) ++
  text ((r"QR-Code scannen").toList ++ [nlChar]) ++
  text ((r"zum Verbinden").toList ++ [nlChar]) ++
  ticketTrailer

/-- `config.printerPort` default (config.js: `PRINTER_PORT` defaults to 9100). -/
def printerPort : Nat := 9100

/-- What a print call does before any I/O: either it throws a validation
error synchronously, or it has assembled the payload and is about to open
the one socket of the call.  A socket is only ever opened on `send`. -/
inductive PrepResult where
  | err (msg : Str)
  | send (host : Str) (port : Nat) (payload : Bytes)
deriving DecidableEq

/-- The destructured parameter object of `printTasks` (printer.js:397-406);
absent fields are `none`, and `tasks` is `none` when it is not an array. -/
structure PrintParams where
  host : Option Str
  port : Option Nat
  tasks : Option (List Task)
  headerTitle : Option Str
  compact : Option Bool
  mode : Option Str
  weekRange : Option Str
deriving DecidableEq

/-- `printTasks` up to the point the socket is opened (printer.js:397-427):
validation, mode inference `mode || (compact ? 'daily' : (tasks.length === 1
? 'single' : 'daily'))`, and payload dispatch. -/
def printTasksPrep (p : PrintParams) (now : Nat × Nat) (tz : Int) : PrepResult :=
  if !truthyStr p.host then .err ((r"Printer host is missing").toList)
  else
    match p.tasks with
    | none => .err ((r"No tasks to print").toList)
    | some tasks =>
      if tasks.isEmpty then .err ((r"No tasks to print").toList)
      else
        let inferred : Str :=
          if (p.compact).getD false then (r"daily").toList
          else if tasks.length = 1 then (r"single").toList
          else (r"daily").toList
        let printMode := jsOrStr p.mode inferred
        let payload : Bytes :=
          if printMode = (r"single").toList then
            tasks.flatMap buildSingleTaskTicket
          else if printMode = (r"weekly").toList then
            buildWeeklySummaryTicket tz tasks
              (jsOrStr p.weekRange (jsOrStr p.headerTitle ((r"Diese Woche").toList)))
          else buildDailySummaryTicket tasks now
        .send ((p.host).getD []) ((p.port).getD printerPort) payload

/-- The destructured parameter object of `printWifiQr` (printer.js:520-521). -/
structure WifiParams where
  host : Option Str
  port : Option Nat
  ssid : Option Str
  password : Option Str
  tpe : Option Str
  hidden : Option Bool
deriving DecidableEq

/-- `printWifiQr` up to the point the socket is opened (printer.js:520-527). -/
def printWifiQrPrep (q : WifiParams) : PrepResult :=
  if !truthyStr q.host then .err ((r"Printer host is missing").toList)
  else if !truthyStr q.ssid then .err ((r"SSID is required").toList)
  else
    .send ((q.host).getD []) ((q.port).getD printerPort)
      (buildWifiQrTicket ((q.ssid).getD []) q.password
        ((q.tpe).getD ((r"WPA").toList)) ((q.hidden).getD false))

/-- The decisive event of a probe connection: connect, an error event
carrying the error's optional `code` and its `message`, or the timeout. -/
inductive SocketEvent where
  | connected
  | errored (code : Option Str) (message : Str)
  | timedOut
deriving DecidableEq

/-- Settling of a promise. -/
inductive PromiseOutcome (α : Type) where
  | resolved (value : α)
  | rejected (error : Str)
deriving DecidableEq

/-- The object `pingPrinter` resolves with. -/
structure PingResult where
  reachable : Bool
  error : Option Str
deriving DecidableEq

/-- `pingPrinter` (printer.js:442-455) as a function of the decisive socket
event: connect resolves `{reachable: true}`; the shared `fail` handler
resolves `{reachable: false, error: err ? err.code || err.message :
'timeout'}` for both the error and the timeout listener. -/
def pingPrinter (ev : SocketEvent) : PromiseOutcome PingResult :=
  match ev with
  | .connected => .resolved ⟨true, none⟩
  | .errored code message =>
    .resolved ⟨false, some (match code with
      | some c => if c.isEmpty then message else c
      | none => message)⟩
  | .timedOut => .resolved ⟨false, some ((r"timeout").toList)⟩

theorem suffix_append_right {α : Type} (l : List α) {r s : List α} (h : s <:+ r) :
    s <:+ l ++ r :=
  h.trans (List.suffix_append l r)

theorem infix_append_left {α : Type} {x m : List α} (r : List α) (h : x <:+: m) :
    x <:+: m ++ r :=
  h.trans (List.prefix_append m r).isInfix

/-- Claim C5: for every input, the byte payload produced by each of the four
ticket builders (single, daily, weekly, wifi) ends with the fixed trailer:
a feed command followed by the full-cut sequence (bytes 0x1B 0x64 N then
0x1D 0x56 0x42 0x00), regardless of content length. -/
theorem tickets_end_with_trailer :
    ticketTrailer = [0x1b, 0x64, 3] ++ [0x1d, 0x56, 0x42, 0x00] ∧
    (∀ t, ticketTrailer <:+ buildSingleTaskTicket t) ∧
    (∀ tasks now, ticketTrailer <:+ buildDailySummaryTicket tasks now) ∧
    (∀ tz tasks weekRange, ticketTrailer <:+ buildWeeklySummaryTicket tz tasks weekRange) ∧
    (∀ ssid password tpe hidden, ticketTrailer <:+ buildWifiQrTicket ssid password tpe hidden) := by
  refine ⟨by decide, fun t => ?_, fun tasks now => ?_, fun tz tasks wr => ?_,
    fun ssid pw ty hd => ?_⟩
  · unfold buildSingleTaskTicket
    generalize ticketTrailer = T
    repeat apply suffix_append_right
    exact List.suffix_rfl
  · unfold buildDailySummaryTicket
    generalize ticketTrailer = T
    repeat apply suffix_append_right
    exact List.suffix_rfl
  · unfold buildWeeklySummaryTicket
    generalize ticketTrailer = T
    repeat apply suffix_append_right
    exact List.suffix_rfl
  · unfold buildWifiQrTicket
    generalize ticketTrailer = T
    repeat apply suffix_append_right
    exact List.suffix_rfl

/-- Claim C9: `pingPrinter` never rejects: it resolves `{reachable: true}`
when the connection succeeds, and resolves `{reachable: false, error}` on a
connection error or on timeout. -/
theorem pingPrinter_never_rejects :
    (∀ ev, ∃ res, pingPrinter ev = .resolved res) ∧
    pingPrinter .connected = .resolved ⟨true, none⟩ ∧
    (∀ code message, ∃ msg,
      pingPrinter (.errored code message) = .resolved ⟨false, some msg⟩) ∧
    pingPrinter .timedOut = .resolved ⟨false, some ((r"timeout").toList)⟩ := by
  refine ⟨fun ev => ?_, rfl, fun code message => ⟨_, rfl⟩, rfl⟩
  cases ev <;> exact ⟨_, rfl⟩

/-- Claim C3: a `printTasks` call with an empty (or non-array) task list or
missing host, and a `printWifiQr` call with a missing host or SSID, fail with
a validation error before any socket is opened: the preparation step returns
`err` and never reaches `send`, the only constructor that opens a socket. -/
theorem validation_errors_before_io :
    (∀ p now tz,
      (truthyStr p.host = false ∨ p.tasks = none ∨ p.tasks = some []) →
      ∃ msg, printTasksPrep p now tz = .err msg) ∧
    (∀ q, (truthyStr q.host = false ∨ truthyStr q.ssid = false) →
      ∃ msg, printWifiQrPrep q = .err msg) := by
  constructor
  · rintro p now tz (h | h | h)
    · exact ⟨(r"Printer host is missing").toList, by simp [printTasksPrep, h]⟩
    · cases hh : truthyStr p.host
      · exact ⟨(r"Printer host is missing").toList, by simp [printTasksPrep, hh]⟩
      · exact ⟨(r"No tasks to print").toList, by simp [printTasksPrep, hh, h]⟩
    · cases hh : truthyStr p.host
      · exact ⟨(r"Printer host is missing").toList, by simp [printTasksPrep, hh]⟩
      · exact ⟨(r"No tasks to print").toList, by simp [printTasksPrep, hh, h]⟩
  · rintro q (h | h)
    · exact ⟨(r"Printer host is missing").toList, by simp [printWifiQrPrep, h]⟩
    · cases hh : truthyStr q.host
      · exact ⟨(r"Printer host is missing").toList, by simp [printWifiQrPrep, hh]⟩
      · exact ⟨(r"SSID is required").toList, by simp [printWifiQrPrep, hh, h]⟩

theorem validation_errors_before_io_witness :
    (∃ msg, printTasksPrep
      ⟨some ((r"printer.local").toList), none, some [], none, none, none, none⟩
      (6, 10) 0 = .err msg) ∧
    (∃ msg, printWifiQrPrep
      ⟨some ((r"printer.local").toList), none, none, none, none, none⟩ = .err msg) :=
  ⟨validation_errors_before_io.1 _ _ _ (Or.inr (Or.inr rfl)),
   validation_errors_before_io.2 _ (Or.inr rfl)⟩

/-- Claim C6 (code bug): `buildDailySummaryTicket` never receives
`headerTitle`; a daily-mode `printTasks` call produces a payload that is
independent of `headerTitle`, and the shopping-list call of server.js:648
(`mode: 'daily'`, `headerTitle: 'EINKAUFSLISTE'`) prints the stock
` HEUTE DD.MM ` header with the override nowhere in the payload. -/
theorem daily_ignores_headerTitle :
    (∀ host port tasks h1 h2 compact weekRange now tz,
      printTasksPrep ⟨host, port, tasks, h1, compact, some ((r"daily").toList), weekRange⟩ now tz =
      printTasksPrep ⟨host, port, tasks, h2, compact, some ((r"daily").toList), weekRange⟩ now tz) ∧
    printTasksPrep
      ⟨some ((r"p").toList), none,
       some [⟨none, (r"Milch").toList, none, none, [], none, none⟩],
       some ((r"EINKAUFSLISTE").toList), none, some ((r"daily").toList), none⟩ (11, 10) 0 =
      .send ((r"p").toList) 9100
        (buildDailySummaryTicket [⟨none, (r"Milch").toList, none, none, [], none, none⟩] (11, 10)) ∧
    ¬ (text ((r"EINKAUFSLISTE").toList) <:+:
        buildDailySummaryTicket [⟨none, (r"Milch").toList, none, none, [], none, none⟩] (11, 10)) := by
  refine ⟨fun host port tasks h1 h2 compact weekRange now tz => ?_, by decide, by decide⟩
  have h1d : ¬(((r"daily").toList).isEmpty = true) := by decide
  have h2d : ¬((r"daily").toList = (r"single").toList) := by decide
  have h3d : ¬((r"daily").toList = (r"weekly").toList) := by decide
  simp only [printTasksPrep, jsOrStr]
  cases truthyStr host
  · rfl
  · cases tasks with
    | none => rfl
    | some ts => simp only [if_neg h1d, if_neg h2d, if_neg h3d]

/-- Claim C1 counterexample: in the single-mode payload for the task
`{id:"1", title:"Müll raus bringen", labels:["Gelb"]}` the byte 0xFC (= 252)
does not occur at all — the builder upper-cases the title, so the `ü` is
printed as `Ü` (byte 0xDC), not as 0xFC as the claim states. -/
theorem single_umlaut_byte_counterexample :
    ¬ (252 ∈ buildSingleTaskTicket
        ⟨some ((r"1").toList), (r"Müll raus bringen").toList, none, none,
         [(r"Gelb").toList], none, none⟩) := by decide

/-- Claim C1 as amended: the single-mode payload for the task `{id:"1",
title:"Müll raus bringen", labels:["Gelb"]}` contains the QR store-data block
for the literal ASCII string `donotick:1`, and contains a title line in which
the `ü` — upper-cased to `Ü` by the builder — is rendered as the single
code-page byte 0xDC rather than as a raw UTF-8 byte sequence (neither the
UTF-8 encoding of `ü`, C3 BC, nor that of `Ü`, C3 9C, occurs). -/
theorem single_ticket_qr_and_codepage :
    [0x1d, 0x28, 0x6b, 13, 0, 0x31, 0x50, 0x30,
     100, 111, 110, 111, 116, 105, 99, 107, 58, 49] <:+:
      buildSingleTaskTicket
        ⟨some ((r"1").toList), (r"Müll raus bringen").toList, none, none,
         [(r"Gelb").toList], none, none⟩ ∧
    text ((r"MÜLL RAUS").toList ++ [nlChar]) =
      [77, 0xdc, 76, 76, 32, 82, 65, 85, 83, 10] ∧
    text ((r"MÜLL RAUS").toList ++ [nlChar]) <:+:
      buildSingleTaskTicket
        ⟨some ((r"1").toList), (r"Müll raus bringen").toList, none, none,
         [(r"Gelb").toList], none, none⟩ ∧
    ¬ ([0xc3, 0xbc] <:+:
      buildSingleTaskTicket
        ⟨some ((r"1").toList), (r"Müll raus bringen").toList, none, none,
         [(r"Gelb").toList], none, none⟩) ∧
    ¬ ([0xc3, 0x9c] <:+:
      buildSingleTaskTicket
        ⟨some ((r"1").toList), (r"Müll raus bringen").toList, none, none,
         [(r"Gelb").toList], none, none⟩) := by
  exact ⟨by decide, by decide, by decide, by decide, by decide⟩

/-- Claim C7 counterexample: a cleaned title of exactly 20 characters that is
printed at size 2, not 3: twenty `ß` characters.  `toUpperCase` expands each
`ß` to `SS`, and the size is chosen from the upper-cased title's length (40),
so `cleanedTitle.length <= 20` does not imply size 3. -/
theorem title_size_counterexample :
    (cleanTitle ((r"ßßßßßßßßßßßßßßßßßßßß").toList)).length = 20 ∧
    singleUseSize
      ⟨none, (r"ßßßßßßßßßßßßßßßßßßßß").toList, none, none, [], none, none⟩ = 2 := by
  exact ⟨by decide, by decide⟩

/-- Claim C7 as amended: the size decision is made on the upper-cased cleaned
title: if its length is at most 20 the title block uses size 3 and wraps at
`floor(32/3) = 10` columns, otherwise size 2 and `floor(32/2) = 16` columns;
the block renders exactly the wrapped lines at that size and occurs in the
single-task payload.  (For titles whose upper-casing preserves length —
anything without `ß` — this is the original 20/21 boundary.) -/
theorem single_title_size_selection (t : Task) :
    ((singleTitle t).length ≤ 20 → singleUseSize t = 3 ∧ singleMaxChars t = 10) ∧
    (20 < (singleTitle t).length → singleUseSize t = 2 ∧ singleMaxChars t = 16) ∧
    singleTitlePart t =
      textSize (singleUseSize t) (singleUseSize t) ++ emphasis true ++
        (wrapTextNoBreak (singleTitle t) (PAPER_WIDTH / singleUseSize t)).flatMap
          (fun line => text (line ++ [nlChar])) ++
        emphasis false ++ textSize 1 1 ++ feed 1 ∧
    singleTitlePart t <:+: buildSingleTaskTicket t := by
  refine ⟨fun h => ?_, fun h => ?_, rfl, ?_⟩
  · have h3 : singleUseSize t = 3 := by unfold singleUseSize; rw [if_neg (by omega)]
    exact ⟨h3, by simp [singleMaxChars, h3, PAPER_WIDTH]⟩
  · have h2 : singleUseSize t = 2 := by unfold singleUseSize; rw [if_pos h]
    exact ⟨h2, by simp [singleMaxChars, h2, PAPER_WIDTH]⟩
  · unfold buildSingleTaskTicket
    generalize singleBanner = A
    generalize singleTitlePart t = T
    generalize singleLabelsPart t = L
    generalize singleDescPart t = D
    generalize singleQrPart t = Q
    generalize ticketTrailer = R
    exact infix_append_left R (infix_append_left Q (infix_append_left D
      (infix_append_left L (List.suffix_append A T).isInfix)))

theorem single_title_size_selection_witness :
    (singleUseSize ⟨none, (r"ZWANZIG ZEICHEN ABCD").toList, none, none, [], none, none⟩ = 3 ∧
     singleMaxChars ⟨none, (r"ZWANZIG ZEICHEN ABCD").toList, none, none, [], none, none⟩ = 10) ∧
    (singleUseSize ⟨none, (r"EINUNDZWANZIG ZEICHEN").toList, none, none, [], none, none⟩ = 2 ∧
     singleMaxChars ⟨none, (r"EINUNDZWANZIG ZEICHEN").toList, none, none, [], none, none⟩ = 16) :=
  ⟨(single_title_size_selection _).1 (by decide),
   (single_title_size_selection _).2.1 (by decide)⟩

/-- Claim C8 counterexample: `wrap("a ", 5)` — a string of length 2, shorter
than the width 5 — returns the single line `"a "`, which is not the trimmed
input `"a"`: the trailing empty fragment produced by `split(/\s+/)` is
appended with a space separator. -/
theorem wrap_trim_counterexample :
    wrapTextNoBreak [Char.ofNat 97, spaceChar] 5 = [[Char.ofNat 97, spaceChar]] ∧
    jsTrim [Char.ofNat 97, spaceChar] = [Char.ofNat 97] ∧
    [Char.ofNat 97, spaceChar] ≠ [Char.ofNat 97] := by
  exact ⟨by decide, by decide, by decide⟩

theorem wrapGo_mem (W : Nat) :
    ∀ (ws : List Str) (line l : Str), l ∈ wrapGo W ws line →
      l.length ≤ W ∨ l ∈ ws ∨ l = line := by
  intro ws
  induction ws with
  | nil =>
    intro line l hl
    by_cases he : line.isEmpty <;> simp [wrapGo, he] at hl
    exact Or.inr (Or.inr hl)
  | cons w ws ih =>
    intro line l hl
    simp only [wrapGo] at hl
    by_cases he : line.isEmpty
    · rw [if_pos he] at hl
      rcases ih w l hl with h | h | h
      · exact Or.inl h
      · exact Or.inr (Or.inl (List.mem_cons_of_mem _ h))
      · exact Or.inr (Or.inl (h ▸ List.mem_cons_self _ _))
    · rw [if_neg he] at hl
      by_cases hf : line.length + 1 + w.length ≤ W
      · rw [if_pos hf] at hl
        rcases ih _ l hl with h | h | h
        · exact Or.inl h
        · exact Or.inr (Or.inl (List.mem_cons_of_mem _ h))
        · subst h
          refine Or.inl ?_
          simp only [List.length_append, List.length_cons]
          omega
      · rw [if_neg hf] at hl
        rcases List.mem_cons.mp hl with h | h
        · exact Or.inr (Or.inr h)
        · rcases ih w l h with h2 | h2 | h2
          · exact Or.inl h2
          · exact Or.inr (Or.inl (List.mem_cons_of_mem _ h2))
          · exact Or.inr (Or.inl (h2 ▸ List.mem_cons_self _ _))

theorem joinWords_cons2 (w v : Str) (vs : List Str) :
    joinWords (w :: v :: vs) = w ++ spaceChar :: joinWords (v :: vs) := by
  simp [joinWords]

theorem joinWords_concat (d : Str) (ds : List Str) (w : Str) :
    joinWords ((d :: ds) ++ [w]) = joinWords (d :: ds) ++ spaceChar :: w := by
  simp [joinWords, List.flatMap_append, List.append_assoc]

theorem wrapGo_join (W : Nat) :
    ∀ (ws cur : List Str), cur ≠ [] →
      ∀ l ∈ wrapGo W ws (joinWords cur),
        ∃ ds, ds ≠ [] ∧ l = joinWords ds ∧ ds <:+: cur ++ ws := by
  intro ws
  induction ws with
  | nil =>
    intro cur hcur l hl
    simp only [wrapGo] at hl
    by_cases he : (joinWords cur).isEmpty
    · rw [if_pos he] at hl
      simp at hl
    · rw [if_neg he] at hl
      simp only [List.mem_singleton] at hl
      exact ⟨cur, hcur, hl, by simp⟩
  | cons w ws ih =>
    intro cur hcur l hl
    have hw : w = joinWords [w] := by simp [joinWords]
    simp only [wrapGo] at hl
    by_cases he : (joinWords cur).isEmpty
    · rw [if_pos he] at hl
      rcases ih [w] (by simp) l (by rw [← hw]; exact hl) with ⟨ds, hne, hjl, hinf⟩
      exact ⟨ds, hne, hjl, hinf.trans (List.suffix_append cur (w :: ws)).isInfix⟩
    · rw [if_neg he] at hl
      by_cases hf : (joinWords cur).length + 1 + w.length ≤ W
      · rw [if_pos hf] at hl
        obtain ⟨d, ds0, rfl⟩ : ∃ d ds0, cur = d :: ds0 := by
          cases cur
          · exact absurd rfl hcur
          · exact ⟨_, _, rfl⟩
        rw [← joinWords_concat d ds0 w] at hl
        rcases ih ((d :: ds0) ++ [w]) (by simp) l hl with ⟨ds, hne, hjl, hinf⟩
        refine ⟨ds, hne, hjl, ?_⟩
        have : (d :: ds0) ++ [w] ++ ws = (d :: ds0) ++ (w :: ws) := by
          simp [List.append_assoc]
        exact this ▸ hinf
      · rw [if_neg hf] at hl
        rcases List.mem_cons.mp hl with h | h
        · exact ⟨cur, hcur, h, (List.prefix_append cur (w :: ws)).isInfix⟩
        · rcases ih [w] (by simp) l (by rw [← hw]; exact h) with ⟨ds, hne, hjl, hinf⟩
          exact ⟨ds, hne, hjl, hinf.trans (List.suffix_append cur (w :: ws)).isInfix⟩

theorem wrapGo_join_nil (W : Nat) (ws : List Str) (l : Str) (hl : l ∈ wrapGo W ws []) :
    ∃ ds, ds ≠ [] ∧ l = joinWords ds ∧ ds <:+: ws := by
  cases ws with
  | nil => simp [wrapGo] at hl
  | cons w ws =>
    simp only [wrapGo, List.isEmpty_nil, if_true] at hl
    have hw : w = joinWords [w] := by simp [joinWords]
    exact wrapGo_join W ws [w] (by simp) l (by rw [← hw]; exact hl)

/-- Claim C2: every line produced by `wrapTextNoBreak(text, W)` has length at
most `W`, except a line that is a single word of the input (in particular,
any line longer than `W` is one of the whitespace-split words, emitted
unsplit); and no word is ever split across lines — every output line is the
single-space join of a nonempty contiguous run of the input's words. -/
theorem wrap_lines_bounded (str : Str) (W : Nat) :
    ∀ l ∈ wrapTextNoBreak str W,
      (W < l.length → l ∈ splitWs str) ∧
      ∃ ds, ds ≠ [] ∧ l = joinWords ds ∧ ds <:+: splitWs str := by
  intro l hl
  constructor
  · intro hW
    rcases wrapGo_mem W (splitWs str) [] l hl with h | h | h
    · omega
    · exact h
    · subst h; simp at hW
  · exact wrapGo_join_nil W (splitWs str) l hl

theorem wrap_lines_bounded_witness :
    ((r"hello").toList ∈ wrapTextNoBreak ((r"hello world").toList) 5) ∧
    ((5 < ((r"hello").toList).length → (r"hello").toList ∈ splitWs ((r"hello world").toList)) ∧
      ∃ ds, ds ≠ [] ∧ (r"hello").toList = joinWords ds ∧
        ds <:+: splitWs ((r"hello world").toList)) :=
  ⟨by decide, wrap_lines_bounded _ 5 _ (by decide)⟩

theorem splitWsAux_cons_nonws (cur : Str) (c : Char) (rest : Str) (hc : jsWs c = false) :
    splitWsAux cur (c :: rest) = splitWsAux (c :: cur) rest := by
  conv_lhs => unfold splitWsAux
  rw [if_neg (by simp [hc])]

theorem splitWsAux_space (cur : Str) (c : Char) (rest : Str) (hc : jsWs c = false) :
    splitWsAux cur (spaceChar :: c :: rest) = cur.reverse :: splitWsAux [c] rest := by
  conv_lhs => unfold splitWsAux
  rw [if_pos (by decide)]
  simp [hc]

theorem splitWsAux_nonws (w : Str) (hw : ∀ c ∈ w, jsWs c = false) :
    ∀ (cur rest : Str), splitWsAux cur (w ++ rest) = splitWsAux (w.reverse ++ cur) rest := by
  induction w with
  | nil => intro cur rest; rfl
  | cons c w ih =>
    intro cur rest
    have hc : jsWs c = false := hw c (List.mem_cons_self c w)
    rw [List.cons_append, splitWsAux_cons_nonws _ _ _ hc,
      ih (fun d hd => hw d (List.mem_cons_of_mem _ hd)) (c :: cur) rest,
      List.reverse_cons, List.append_assoc]
    rfl

theorem splitWs_join (ws : List Str) (hne : ws ≠ [])
    (hwf : ∀ w ∈ ws, w ≠ [] ∧ ∀ c ∈ w, jsWs c = false) :
    splitWs (joinWords ws) = ws := by
  induction ws with
  | nil => exact absurd rfl hne
  | cons w ws ih =>
    have hw := hwf w (List.mem_cons_self w ws)
    cases ws with
    | nil =>
      unfold splitWs
      have h1 : joinWords [w] = w := by simp [joinWords]
      rw [h1]
      calc splitWsAux [] w = splitWsAux [] (w ++ []) := by rw [List.append_nil]
        _ = splitWsAux (w.reverse ++ []) [] := splitWsAux_nonws w hw.2 [] []
        _ = [w] := by simp [splitWsAux]
    | cons v vs =>
      have hv := hwf v (List.mem_cons_of_mem _ (List.mem_cons_self v vs))
      obtain ⟨c, v2, rfl⟩ : ∃ c v2, v = c :: v2 := by
        cases v
        · exact absurd rfl hv.1
        · exact ⟨_, _, rfl⟩
      have hcns : jsWs c = false := hv.2 c (List.mem_cons_self c v2)
      have hJ : joinWords ((c :: v2) :: vs) =
          c :: (v2 ++ vs.flatMap (fun u => spaceChar :: u)) := by
        simp [joinWords]
      unfold splitWs
      rw [joinWords_cons2, splitWsAux_nonws w hw.2 [] _, hJ, splitWsAux_space _ c _ hcns]
      have hback : splitWsAux [c] (v2 ++ vs.flatMap (fun u => spaceChar :: u)) =
          splitWsAux [] (joinWords ((c :: v2) :: vs)) := by
        rw [hJ, splitWsAux_cons_nonws [] c _ hcns]
      rw [hback]
      have ihv := ih (by simp) (fun u hu => hwf u (List.mem_cons_of_mem _ hu))
      unfold splitWs at ihv
      rw [ihv]
      simp

theorem wrapGo_fits (W : Nat) :
    ∀ (ws : List Str) (line : Str), line ≠ [] →
      line.length + (ws.map (fun w => w.length + 1)).sum ≤ W →
      wrapGo W ws line = [line ++ ws.flatMap (fun v => spaceChar :: v)] := by
  intro ws
  induction ws with
  | nil =>
    intro line hline _
    have he : line.isEmpty = false := by
      cases line
      · exact absurd rfl hline
      · rfl
    simp [wrapGo, he]
  | cons w ws ih =>
    intro line hline hsum
    have he : line.isEmpty = false := by
      cases line
      · exact absurd rfl hline
      · rfl
    simp only [List.map_cons, List.sum_cons] at hsum
    have hfit : line.length + 1 + w.length ≤ W := by omega
    simp only [wrapGo, he, Bool.false_eq_true, if_false, if_pos hfit]
    rw [ih (line ++ spaceChar :: w) (by simp)
      (by simp only [List.length_append, List.length_cons]; omega)]
    simp [List.append_assoc]

theorem joinWords_length :
    ∀ (ws : List Str) (w : Str),
      (joinWords (w :: ws)).length = w.length + (ws.map (fun v => v.length + 1)).sum := by
  intro ws
  induction ws with
  | nil => intro w; simp [joinWords]
  | cons v vs ih =>
    intro w
    rw [joinWords_cons2]
    simp only [List.length_append, List.length_cons, List.map_cons, List.sum_cons]
    have := ih v
    omega

theorem dropWhile_eq_self_of_head {p : Char → Bool} :
    ∀ (l : Str), (∀ c, l.head? = some c → p c = false) → l.dropWhile p = l := by
  intro l h
  cases l with
  | nil => rfl
  | cons c rest => simp [List.dropWhile_cons, h c rfl]

/-- Claim C8 as amended: for a nonempty string shorter than `W` that is
already in collapsed, trimmed form — nonempty whitespace-free words joined
by single spaces — `wrapTextNoBreak` returns exactly one line equal to the
input, which coincides with its own trim.  (For general input the single
output line is the input with whitespace runs collapsed, a leading run
dropped and a trailing run turned into one trailing space, as the
counterexample `"a "` shows.) -/
theorem wrap_short_text_single_line (W : Nat) (ws : List Str) (hne : ws ≠ [])
    (hwf : ∀ w ∈ ws, w ≠ [] ∧ ∀ c ∈ w, jsWs c = false)
    (hlen : (joinWords ws).length < W) :
    wrapTextNoBreak (joinWords ws) W = [joinWords ws] ∧
    jsTrim (joinWords ws) = joinWords ws := by
  obtain ⟨w, ws2, rfl⟩ : ∃ w ws2, ws = w :: ws2 := by
    cases ws
    · exact absurd rfl hne
    · exact ⟨_, _, rfl⟩
  have hw := hwf w (List.mem_cons_self w ws2)
  constructor
  · unfold wrapTextNoBreak
    rw [splitWs_join _ hne hwf]
    simp only [wrapGo, List.isEmpty_nil, if_true]
    rw [wrapGo_fits W ws2 w hw.1 (by rw [joinWords_length ws2 w] at hlen; omega)]
    simp [joinWords]
  · have hfront : ∀ c, (joinWords (w :: ws2)).head? = some c → jsWs c = false := by
      obtain ⟨c0, w2, rfl⟩ : ∃ c0 w2, w = c0 :: w2 := by
        cases w
        · exact absurd rfl hw.1
        · exact ⟨_, _, rfl⟩
      intro c hc
      have : joinWords ((c0 :: w2) :: ws2) =
          c0 :: (w2 ++ ws2.flatMap (fun u => spaceChar :: u)) := by simp [joinWords]
      rw [this] at hc
      simp only [List.head?_cons, Option.some.injEq] at hc
      exact hc ▸ hw.2 c0 (List.mem_cons_self c0 w2)
    have hback : ∀ c, ((joinWords (w :: ws2)).reverse).head? = some c → jsWs c = false := by
      rcases List.eq_nil_or_concat ws2 with rfl | ⟨ds, v, rfl⟩
      · intro c hc
        have hmem : c ∈ (joinWords [w]).reverse := List.mem_of_mem_head? hc
        rw [List.mem_reverse] at hmem
        have : joinWords [w] = w := by simp [joinWords]
        exact hw.2 c (this ▸ hmem)
      · intro c hc
        have hv := hwf v (by simp)
        rw [List.concat_eq_append] at hc
        have hJ : joinWords (w :: (ds ++ [v])) = joinWords (w :: ds) ++ spaceChar :: v := by
          rw [← List.cons_append, joinWords_concat]
        rw [hJ, List.reverse_append, List.reverse_cons, List.append_assoc] at hc
        obtain ⟨d, tl, hd⟩ := List.exists_cons_of_ne_nil
          (show v.reverse ≠ [] by simp [hv.1])
        rw [hd, List.cons_append, List.head?_cons, Option.some.injEq] at hc
        have hdm : d ∈ v := by
          rw [← List.mem_reverse, hd]
          exact List.mem_cons_self d tl
        exact hc ▸ hv.2 d hdm
    unfold jsTrim
    rw [dropWhile_eq_self_of_head _ hfront, dropWhile_eq_self_of_head _ hback,
      List.reverse_reverse]

theorem wrap_short_text_single_line_witness :
    wrapTextNoBreak (joinWords [(r"hi").toList, (r"yo").toList]) 6 =
      [joinWords [(r"hi").toList, (r"yo").toList]] ∧
    jsTrim (joinWords [(r"hi").toList, (r"yo").toList]) =
      joinWords [(r"hi").toList, (r"yo").toList] :=
  wrap_short_text_single_line 6 [(r"hi").toList, (r"yo").toList]
    (by decide) (by decide) (by decide)

theorem any_keys_iff (g : List (Str × List Task)) (k : Str) :
    (g.any (fun p => p.1 == k)) = true ↔ k ∈ g.map Prod.fst := by
  simp only [List.any_eq_true, List.mem_map, beq_iff_eq]

theorem keys_insertTask (g : List (Str × List Task)) (k : Str) (t : Task) :
    (insertTask g k t).map Prod.fst =
      if k ∈ g.map Prod.fst then g.map Prod.fst else g.map Prod.fst ++ [k] := by
  unfold insertTask
  by_cases h : k ∈ g.map Prod.fst
  · rw [if_pos ((any_keys_iff g k).mpr h), if_pos h, List.map_map]
    apply List.map_congr_left
    intro p _
    simp only [Function.comp_apply]
    split <;> rfl
  · rw [if_neg (fun hh => h ((any_keys_iff g k).mp hh)), if_neg h, List.map_append]
    rfl

theorem mem_keys_insertTask {g : List (Str × List Task)} {k2 k : Str} {t : Task}
    (h : k2 ∈ (insertTask g k t).map Prod.fst) : k2 ∈ g.map Prod.fst ∨ k2 = k := by
  rw [keys_insertTask] at h
  split at h
  · exact Or.inl h
  · rcases List.mem_append.mp h with h | h
    · exact Or.inl h
    · exact Or.inr (List.mem_singleton.mp h)

theorem nodup_keys_insertTask {g : List (Str × List Task)} (k : Str) (t : Task)
    (h : (g.map Prod.fst).Nodup) : ((insertTask g k t).map Prod.fst).Nodup := by
  rw [keys_insertTask]
  split
  · exact h
  · next hk =>
    refine h.append (List.nodup_singleton k) ?_
    intro a ha hb
    rw [List.mem_singleton] at hb
    exact hk (hb ▸ ha)

theorem nodup_keys_groupsRaw (tz : Int) (tasks : List Task) :
    ((groupsRaw tz tasks).map Prod.fst).Nodup := by
  suffices h : ∀ (ts : List Task) (g : List (Str × List Task)),
      (g.map Prod.fst).Nodup → (((ts.foldl (groupStep tz) g)).map Prod.fst).Nodup by
    exact h tasks [] (by simp)
  intro ts
  induction ts with
  | nil => exact fun g hg => hg
  | cons t ts ih =>
    intro g hg
    simp only [List.foldl_cons]
    apply ih
    rcases htk : taskKey tz t with _ | k <;> simp only [groupStep, htk]
    · exact hg
    · exact nodup_keys_insertTask k t hg

theorem derive_keys_groupsRaw (tz : Int) (tasks : List Task) :
    ∀ k ∈ (groupsRaw tz tasks).map Prod.fst, ∃ t ∈ tasks, taskKey tz t = some k := by
  suffices h : ∀ (ts : List Task) (g : List (Str × List Task)) (k : Str),
      k ∈ ((ts.foldl (groupStep tz) g).map Prod.fst) →
      k ∈ g.map Prod.fst ∨ ∃ t ∈ ts, taskKey tz t = some k by
    intro k hk
    rcases h tasks [] k hk with h2 | h2
    · simp at h2
    · exact h2
  intro ts
  induction ts with
  | nil => exact fun g k hk => Or.inl hk
  | cons t ts ih =>
    intro g k hk
    simp only [List.foldl_cons] at hk
    rcases ih (groupStep tz g t) k hk with h2 | h2
    · rcases htk : taskKey tz t with _ | k0
      · rw [groupStep, htk] at h2
        exact Or.inl h2
      · rw [groupStep, htk] at h2
        rcases mem_keys_insertTask h2 with h3 | h3
        · exact Or.inl h3
        · exact Or.inr ⟨t, List.mem_cons_self t ts, h3 ▸ htk⟩
    · rcases h2 with ⟨u, hu, hk2⟩
      exact Or.inr ⟨u, List.mem_cons_of_mem _ hu, hk2⟩

theorem bucket_invariant_groupsRaw (tz : Int) (tasks : List Task) :
    ∀ p ∈ groupsRaw tz tasks, ∀ u ∈ p.2, taskKey tz u = some p.1 := by
  suffices h : ∀ (ts : List Task) (g : List (Str × List Task)),
      (∀ p ∈ g, ∀ u ∈ p.2, taskKey tz u = some p.1) →
      ∀ p ∈ ts.foldl (groupStep tz) g, ∀ u ∈ p.2, taskKey tz u = some p.1 by
    exact h tasks [] (by simp)
  intro ts
  induction ts with
  | nil => exact fun g hg => hg
  | cons t ts ih =>
    intro g hg
    simp only [List.foldl_cons]
    apply ih
    rcases htk : taskKey tz t with _ | k <;> simp only [groupStep, htk]
    · exact hg
    · intro p hp u hu
      unfold insertTask at hp
      split at hp
      · rcases List.mem_map.mp hp with ⟨q, hq, he⟩
        by_cases hqk : q.1 = k
        · rw [if_pos (by simp [hqk])] at he
          subst he
          simp only at hu
          rcases List.mem_append.mp hu with h2 | h2
          · exact hg q hq u h2
          · rw [List.mem_singleton] at h2
            subst h2
            simp only
            rw [htk, hqk]
        · rw [if_neg (by simp [hqk])] at he
          subst he
          exact hg q hq u hu
      · rcases List.mem_append.mp hp with h2 | h2
        · exact hg p h2 u hu
        · rw [List.mem_singleton] at h2
          subst h2
          rw [List.mem_singleton] at hu
          subst hu
          exact htk

theorem keys_groupTasksByDay (tz : Int) (tasks : List Task) :
    (groupTasksByDay tz tasks).map Prod.fst =
      List.insertionSort (fun a b : Str => a ≤ b) ((groupsRaw tz tasks).map Prod.fst) := by
  unfold groupTasksByDay
  rw [List.map_map]
  simp [Function.comp_def]

theorem bucket_groupTasksByDay (tz : Int) (tasks : List Task) :
    ∀ p ∈ groupTasksByDay tz tasks, ∀ u ∈ p.2, taskKey tz u = some p.1 := by
  intro p hp u hu
  unfold groupTasksByDay at hp
  rcases List.mem_map.mp hp with ⟨k, _, rfl⟩
  unfold findBucket at hu
  rcases hfind : (groupsRaw tz tasks).find? (fun q => q.1 == k) with _ | q
  · rw [hfind] at hu
    simp at hu
  · rw [hfind] at hu
    have hqmem : q ∈ groupsRaw tz tasks := List.mem_of_find?_eq_some hfind
    have hqk : q.1 = k := by
      have := List.find?_some hfind
      simpa using this
    have := bucket_invariant_groupsRaw tz tasks q hqmem u hu
    rw [hqk] at this
    exact this

/-- Claim C4: for every task list (and environment time zone), the
date-bucket keys of `groupTasksByDay` — both all of them and the ones whose
day groups the weekly builder actually emits — form a strictly ascending
sequence under lexicographic string order, and every key is derived from
some task's `due` value by the UTC `toISOString().slice(0,10)` key
function. -/
theorem weekly_day_keys_ascending (tz : Int) (tasks : List Task) :
    ((groupTasksByDay tz tasks).map Prod.fst).Sorted (fun a b : Str => a < b) ∧
    (((groupTasksByDay tz tasks).filter (fun p => !p.2.isEmpty)).map Prod.fst).Sorted
      (fun a b : Str => a < b) ∧
    ∀ k ∈ (groupTasksByDay tz tasks).map Prod.fst,
      ∃ t ∈ tasks, ∃ s, t.due = some s ∧ jsDateKey tz s = some k := by
  have hperm := List.perm_insertionSort (fun a b : Str => a ≤ b)
    ((groupsRaw tz tasks).map Prod.fst)
  have hsortedle : ((groupTasksByDay tz tasks).map Prod.fst).Sorted
      (fun a b : Str => a ≤ b) := by
    rw [keys_groupTasksByDay]
    exact List.sorted_insertionSort _ _
  have hnodup : ((groupTasksByDay tz tasks).map Prod.fst).Nodup := by
    rw [keys_groupTasksByDay]
    exact hperm.nodup_iff.mpr (nodup_keys_groupsRaw tz tasks)
  have hlt := hsortedle.lt_of_le hnodup
  refine ⟨hlt, ?_, ?_⟩
  · exact List.Pairwise.sublist
      (List.Sublist.map _ (List.filter_sublist _)) hlt
  · intro k hk
    have hk2 : k ∈ (groupsRaw tz tasks).map Prod.fst := by
      rw [keys_groupTasksByDay] at hk
      exact hperm.mem_iff.mp hk
    rcases derive_keys_groupsRaw tz tasks k hk2 with ⟨t, hmem, htk⟩
    rcases hdue : t.due with _ | s
    · simp only [taskKey, hdue] at htk
      exact absurd htk (by simp)
    · simp only [taskKey, hdue] at htk
      by_cases hse : s.isEmpty = true
      · rw [if_pos hse] at htk
        exact absurd htk (by simp)
      · rw [if_neg hse] at htk
        exact ⟨t, hmem, s, hdue, htk⟩

theorem weekly_day_keys_ascending_witness :
    ((groupTasksByDay 0
      [⟨none, (r"a").toList, none, some ((r"2025-10-08").toList), [], none, none⟩,
       ⟨none, (r"b").toList, none, some ((r"2025-10-06").toList), [], none, none⟩]).map
        Prod.fst).Sorted (fun a b : Str => a < b) ∧
    (((groupTasksByDay 0
      [⟨none, (r"a").toList, none, some ((r"2025-10-08").toList), [], none, none⟩,
       ⟨none, (r"b").toList, none, some ((r"2025-10-06").toList), [], none, none⟩]).filter
        (fun p => !p.2.isEmpty)).map Prod.fst).Sorted (fun a b : Str => a < b) ∧
    ∀ k ∈ (groupTasksByDay 0
      [⟨none, (r"a").toList, none, some ((r"2025-10-08").toList), [], none, none⟩,
       ⟨none, (r"b").toList, none, some ((r"2025-10-06").toList), [], none, none⟩]).map
        Prod.fst,
      ∃ t ∈ [⟨none, (r"a").toList, none, some ((r"2025-10-08").toList), [], none, none⟩,
             ⟨none, (r"b").toList, none, some ((r"2025-10-06").toList), [], none, none⟩],
        ∃ s, Task.due t = some s ∧ jsDateKey 0 s = some k :=
  weekly_day_keys_ascending 0
    [⟨none, (r"a").toList, none, some ((r"2025-10-08").toList), [], none, none⟩,
     ⟨none, (r"b").toList, none, some ((r"2025-10-06").toList), [], none, none⟩]

theorem sum_filter_isEmpty (l : List (Str × List Task)) :
    ((l.filter (fun p => !p.2.isEmpty)).map (fun p => p.2.length)).sum =
      (l.map (fun p => p.2.length)).sum := by
  induction l with
  | nil => rfl
  | cons p l ih =>
    by_cases hp : p.2.isEmpty
    · have hlen : p.2.length = 0 := by
        rw [List.isEmpty_iff] at hp
        simp [hp]
      simp [List.filter_cons, hp, ih, hlen]
    · simp [List.filter_cons, hp, ih]

theorem findBucket_cons_self (p : Str × List Task) (g : List (Str × List Task)) :
    findBucket (p :: g) p.1 = p.2 := by
  unfold findBucket
  rw [List.find?_cons_of_pos _ (by simp)]

theorem findBucket_cons_ne (p : Str × List Task) (g : List (Str × List Task)) (k : Str)
    (h : p.1 ≠ k) : findBucket (p :: g) k = findBucket g k := by
  unfold findBucket
  rw [List.find?_cons_of_neg _ (by simp [h])]

theorem map_keys_findBucket (g : List (Str × List Task))
    (h : (g.map Prod.fst).Nodup) :
    (g.map Prod.fst).map (fun k => (findBucket g k).length) =
      g.map (fun p => p.2.length) := by
  induction g with
  | nil => rfl
  | cons p g ih =>
    rw [List.map_cons] at h
    have hnod := List.nodup_cons.mp h
    simp only [List.map_cons]
    rw [findBucket_cons_self]
    congr 1
    have hcong : ∀ k ∈ g.map Prod.fst,
        (findBucket (p :: g) k).length = (findBucket g k).length := by
      intro k hk
      rw [findBucket_cons_ne p g k (fun he => hnod.1 (he ▸ hk))]
    rw [List.map_congr_left hcong]
    exact ih hnod.2

theorem sum_map_grow (g : List (Str × List Task)) (k : Str) (t : Task)
    (hmem : k ∈ g.map Prod.fst) (h : (g.map Prod.fst).Nodup) :
    ((g.map (fun p => if p.1 == k then (p.1, p.2 ++ [t]) else p)).map
      (fun p => p.2.length)).sum = (g.map (fun p => p.2.length)).sum + 1 := by
  induction g with
  | nil => simp at hmem
  | cons p g ih =>
    rw [List.map_cons] at h hmem
    have hnod := List.nodup_cons.mp h
    simp only [List.map_cons, List.sum_cons]
    by_cases hpk : p.1 = k
    · rw [if_pos (by simp [hpk])]
      have hid : g.map (fun q => if q.1 == k then (q.1, q.2 ++ [t]) else q) = g := by
        conv_rhs => rw [← List.map_id g]
        apply List.map_congr_left
        intro q hq
        have hqk : q.1 ≠ k := by
          intro he
          apply hnod.1
          rw [hpk, ← he]
          exact List.mem_map_of_mem _ hq
        rw [if_neg (by simp [hqk])]
        rfl
      rw [hid]
      simp only [List.length_append, List.length_cons, List.length_nil]
      omega
    · rw [if_neg (by simp [hpk])]
      have hmem2 : k ∈ g.map Prod.fst := by
        rcases List.mem_cons.mp hmem with h2 | h2
        · exact absurd h2.symm hpk
        · exact h2
      rw [ih hmem2 hnod.2]
      omega

theorem sum_insertTask (g : List (Str × List Task)) (k : Str) (t : Task)
    (h : (g.map Prod.fst).Nodup) :
    ((insertTask g k t).map (fun p => p.2.length)).sum =
      (g.map (fun p => p.2.length)).sum + 1 := by
  unfold insertTask
  by_cases hmem : k ∈ g.map Prod.fst
  · rw [if_pos ((any_keys_iff g k).mpr hmem)]
    exact sum_map_grow g k t hmem h
  · rw [if_neg (fun hh => hmem ((any_keys_iff g k).mp hh))]
    simp

theorem sum_groupsRaw (tz : Int) (tasks : List Task) :
    ((groupsRaw tz tasks).map (fun p => p.2.length)).sum =
      tasks.countP (fun u => (taskKey tz u).isSome) := by
  suffices h : ∀ (ts : List Task) (g : List (Str × List Task)),
      (g.map Prod.fst).Nodup →
      ((ts.foldl (groupStep tz) g).map (fun p => p.2.length)).sum =
        (g.map (fun p => p.2.length)).sum + ts.countP (fun u => (taskKey tz u).isSome) by
    simpa using h tasks [] (by simp)
  intro ts
  induction ts with
  | nil =>
    intro g _
    simp
  | cons t ts ih =>
    intro g hg
    simp only [List.foldl_cons, List.countP_cons]
    rcases htk : taskKey tz t with _ | k
    · rw [show groupStep tz g t = g from by simp [groupStep, htk], ih g hg]
      simp [htk]
    · rw [show groupStep tz g t = insertTask g k t from by simp [groupStep, htk],
        ih _ (nodup_keys_insertTask k t hg), sum_insertTask g k t hg]
      simp [htk]
      omega

theorem countP_or_disjoint (l : List Task) (p q : Task → Bool)
    (h : ∀ x, p x = true → q x = false) :
    l.countP (fun x => p x || q x) = l.countP p + l.countP q := by
  induction l with
  | nil => rfl
  | cons a l ih =>
    simp only [List.countP_cons, ih]
    by_cases hp : p a = true <;> by_cases hq : q a = true
    · exact absurd (h a hp) (by simp [hq])
    · simp [hp, hq]
      omega
    · simp [hp, hq]
      omega
    · simp [hp, hq]

theorem taskKey_isSome_truthy (tz : Int) (u : Task)
    (h : (taskKey tz u).isSome = true) : truthyStr u.due = true := by
  rcases hdue : u.due with _ | s
  · simp only [taskKey, hdue] at h
    simp at h
  · simp only [taskKey, hdue] at h
    by_cases hse : s.isEmpty = true
    · rw [if_pos hse] at h
      simp at h
    · simp [truthyStr, hse]

/-- Claim C10: in the weekly builder, a task whose `due` is present (truthy)
but does not parse as a valid date is omitted entirely: it lands in no day
bucket of `groupTasksByDay`, it is excluded from the OHNE DATUM bucket
(which collects only falsy-`due` tasks), and the GESAMT running total counts
exactly the tasks with a parseable `due` plus the falsy-`due` tasks, so the
invalid-`due` task is not counted. -/
theorem weekly_invalid_due_omitted (tz : Int) (tasks : List Task) (t : Task)
    (_hmem : t ∈ tasks) (s : Str) (hdue : t.due = some s) (hne : s.isEmpty = false)
    (hbad : jsDateKey tz s = none) :
    (∀ p ∈ groupTasksByDay tz tasks, t ∉ p.2) ∧
    t ∉ weeklyNoDue tasks ∧
    weeklyTotalCount tz tasks =
      (tasks.filter (fun u => (taskKey tz u).isSome || !truthyStr u.due)).length := by
  have htk : taskKey tz t = none := by
    simp only [taskKey, hdue]
    rw [if_neg (by simp [hne]), hbad]
  refine ⟨?_, ?_, ?_⟩
  · intro p hp hmem2
    have := bucket_groupTasksByDay tz tasks p hp t hmem2
    rw [htk] at this
    exact absurd this (by simp)
  · intro hmem2
    have := List.of_mem_filter hmem2
    rw [hdue] at this
    simp [truthyStr, hne] at this
  · unfold weeklyTotalCount
    rw [sum_filter_isEmpty]
    have hperm := List.perm_insertionSort (fun a b : Str => a ≤ b)
      ((groupsRaw tz tasks).map Prod.fst)
    have h1 : ((groupTasksByDay tz tasks).map (fun p => p.2.length)).sum =
        (((groupsRaw tz tasks).map Prod.fst).map
          (fun k => (findBucket (groupsRaw tz tasks) k).length)).sum := by
      unfold groupTasksByDay
      rw [List.map_map]
      exact (hperm.map (fun k => (findBucket (groupsRaw tz tasks) k).length)).sum_eq
    rw [h1, map_keys_findBucket _ (nodup_keys_groupsRaw tz tasks), sum_groupsRaw]
    have h2 : (weeklyNoDue tasks).length = tasks.countP (fun u => !truthyStr u.due) := by
      unfold weeklyNoDue
      rw [← List.countP_eq_length_filter]
    rw [h2,
      show (tasks.filter (fun u => (taskKey tz u).isSome || !truthyStr u.due)).length =
        tasks.countP (fun u => (taskKey tz u).isSome || !truthyStr u.due) from
        (List.countP_eq_length_filter _ _).symm,
      countP_or_disjoint]
    intro x hx
    simp [taskKey_isSome_truthy tz x hx]

theorem weekly_invalid_due_omitted_witness :
    (∀ p ∈ groupTasksByDay 0
        [⟨none, (r"c").toList, none, some ((r"not-a-date").toList), [], none, none⟩,
         ⟨none, (r"a").toList, none, some ((r"2025-10-08").toList), [], none, none⟩,
         ⟨none, (r"d").toList, none, none, [], none, none⟩],
      (⟨none, (r"c").toList, none, some ((r"not-a-date").toList), [], none, none⟩ : Task) ∉ p.2) ∧
    (⟨none, (r"c").toList, none, some ((r"not-a-date").toList), [], none, none⟩ : Task) ∉
      weeklyNoDue
        [⟨none, (r"c").toList, none, some ((r"not-a-date").toList), [], none, none⟩,
         ⟨none, (r"a").toList, none, some ((r"2025-10-08").toList), [], none, none⟩,
         ⟨none, (r"d").toList, none, none, [], none, none⟩] ∧
    weeklyTotalCount 0
        [⟨none, (r"c").toList, none, some ((r"not-a-date").toList), [], none, none⟩,
         ⟨none, (r"a").toList, none, some ((r"2025-10-08").toList), [], none, none⟩,
         ⟨none, (r"d").toList, none, none, [], none, none⟩] =
      ([⟨none, (r"c").toList, none, some ((r"not-a-date").toList), [], none, none⟩,
        ⟨none, (r"a").toList, none, some ((r"2025-10-08").toList), [], none, none⟩,
        ⟨none, (r"d").toList, none, none, [], none, none⟩].filter
          (fun u : Task => (taskKey 0 u).isSome || !truthyStr u.due)).length :=
  weekly_invalid_due_omitted 0
    [⟨none, (r"c").toList, none, some ((r"not-a-date").toList), [], none, none⟩,
     ⟨none, (r"a").toList, none, some ((r"2025-10-08").toList), [], none, none⟩,
     ⟨none, (r"d").toList, none, none, [], none, none⟩]
    ⟨none, (r"c").toList, none, some ((r"not-a-date").toList), [], none, none⟩
    (by decide) ((r"not-a-date").toList) rfl (by decide) (by decide)

end PrinterHub
